import Mathlib

/-!  Shallow embedding of the TaniClaw decision core (rules engine, state
engine, security guard, tool executor, orchestrator action loop), translated
from `src/taniclaw/core/{rules,state,security,tools,core}.py`, together with
theorems settling the frozen claims about it. -/

namespace TaniClaw

/-- Python scalar/list values as they appear in rule documents, contexts and
action dicts.  Numeric values are modelled as integers (no claim involves
fractional numerics); `vnone` is Python `None`. -/
inductive Value where
  | vnone : Value
  | vint (n : Int) : Value
  | vbool (b : Bool) : Value
  | vstr (s : String) : Value
  | vlist (xs : List Value) : Value

/-- Is this value Python `None`?  (`actual is None` in the source.) -/
def Value.isNoneV : Value → Bool
  | .vnone => true
  | _ => false

/-- Python numeric coercion: `bool` is an `int` subtype (`True == 1`). -/
def toNum : Value → Option Int
  | .vint n => some n
  | .vbool b => some (if b then 1 else 0)
  | _ => none

/-- A Python dict with string keys, modelled as an insertion-ordered
association list (Python dicts preserve insertion order). -/
abbrev Dict := List (String × Value)

/-- Python `d.get(k)`: first binding of `k`, if any. -/
def dictGet (d : Dict) (k : String) : Option Value :=
  match d.find? (fun p => p.1 == k) with
  | some p => some p.2
  | none => none

/-- Python `d[k] = v`: replace an existing binding in place, else append. -/
def dictSet (d : Dict) (k : String) (v : Value) : Dict :=
  if d.any (fun p => p.1 == k) then
    d.map (fun p => if p.1 == k then (k, v) else p)
  else
    d ++ [(k, v)]

/-- Python dict merge of `d` into `base` (double-star unpacking), later
keys overriding. -/
def dictMerge (base d : Dict) : Dict :=
  d.foldl (fun acc p => dictSet acc p.1 p.2) base

/- Python `==` semantics on `Value` (structural, with bool/int coercion;
cross-kind comparison is `False`, never an error). -/
mutual

def pyEq : Value → Value → Bool
  | .vnone, .vnone => true
  | .vint a, .vint b => a == b
  | .vint a, .vbool b => a == (if b then (1 : Int) else 0)
  | .vbool a, .vint b => (if a then (1 : Int) else 0) == b
  | .vbool a, .vbool b => a == b
  | .vstr a, .vstr b => a == b
  | .vlist a, .vlist b => pyEqList a b
  | _, _ => false

def pyEqList : List Value → List Value → Bool
  | [], [] => true
  | x :: xs, y :: ys => pyEq x y && pyEqList xs ys
  | _, _ => false

end

/- Python three-way comparison (`<`, `<=`, `>`, `>=` derive from it).
`none` models a raised `TypeError` (unorderable operands).  List comparison
follows CPython: scan with `==` and order the first differing pair. -/
mutual

def pyCmp : Value → Value → Option Ordering
  | .vint a, .vint b => some (compare a b)
  | .vint a, .vbool b => some (compare a (if b then 1 else 0))
  | .vbool a, .vint b => some (compare (if a then (1 : Int) else 0) b)
  | .vbool a, .vbool b => some (compare (if a then (1 : Int) else 0) (if b then 1 else 0))
  | .vstr a, .vstr b => some (compare a b)
  | .vlist a, .vlist b => pyCmpList a b
  | _, _ => none

def pyCmpList : List Value → List Value → Option Ordering
  | [], [] => some .eq
  | [], _ :: _ => some .lt
  | _ :: _, [] => some .gt
  | x :: xs, y :: ys => if pyEq x y then pyCmpList xs ys else pyCmp x y

end

/- Python `repr` of a value (string form used inside rendered lists). -/
mutual

def pyRepr : Value → String
  | .vnone => "None"
  | .vint n => toString n
  | .vbool b => if b then "True" else "False"
  | .vstr s => "\x27" ++ s ++ "\x27"
  | .vlist xs => "[" ++ String.intercalate ", " (pyReprList xs) ++ "]"

def pyReprList : List Value → List String
  | [] => []
  | x :: xs => pyRepr x :: pyReprList xs

end

/-- Python `str` of a value. -/
def pyStr : Value → String
  | .vnone => "None"
  | .vint n => toString n
  | .vbool b => if b then "True" else "False"
  | .vstr s => s
  | .vlist xs => "[" ++ String.intercalate ", " (pyReprList xs) ++ "]"

/-- Does `hay` contain `needle` as a contiguous substring (character level)? -/
def charsContain (needle : List Char) : List Char → Bool
  | [] => needle.isEmpty
  | c :: t => needle.isPrefixOf (c :: t) || charsContain needle t

/-- Python `needle in hay` for strings: substring test. -/
def strContainsSub (hay needle : String) : Bool :=
  charsContain needle.toList hay.toList

/-- Python `actual in value`: list membership by `==`, or substring when
`value` is a string and `actual` is a string; otherwise a `TypeError`. -/
def pyIn (actual v : Value) : Option Bool :=
  match v with
  | .vlist xs => some (xs.any (fun x => pyEq x actual))
  | .vstr hay =>
    match actual with
    | .vstr s => some (strContainsSub hay s)
    | _ => none
  | _ => none

/-! ## Rules engine (`src/taniclaw/core/rules.py`) -/

/-- A rule condition dict; each key may be missing (`condition.get(...)`). -/
structure Condition where
  field? : Option String := none
  operator? : Option String := none
  value? : Option Value := none

/-- A rule dict as loaded from a YAML document; each key may be missing. -/
structure Rule where
  id? : Option String := none
  name? : Option String := none
  priority? : Option Int := none
  conditions? : Option (List Condition) := none
  action? : Option Dict := none

/-- Embeds `r.get("priority", 10)` — the sort key used by `_load_rules`. -/
def rulePriority (r : Rule) : Int := r.priority?.getD 10

/-- An evaluation context (`context: dict`). -/
abbrev Context := Dict

/-- Embeds `context.get(field)`: Python returns `None` both when `field` is `None`
and when the key is missing. -/
def ctxGet (ctx : Context) (f? : Option String) : Value :=
  match f? with
  | none => Value.vnone
  | some f => (dictGet ctx f).getD Value.vnone

/-- Embeds `RulesEngine._check_condition`.  `some b` is a returned boolean, `none`
a raised exception (possible only from the comparison operators). -/
def check_condition (cond : Condition) (ctx : Context) : Option Bool :=
  let value := cond.value?.getD Value.vnone
  let actual := ctxGet ctx cond.field?
  if actual.isNoneV then some false
  else
    match cond.operator? with
    | some "eq" => some (pyEq actual value)
    | some "neq" => some (!pyEq actual value)
    | some "gt" => (pyCmp actual value).map (fun o => o == Ordering.gt)
    | some "gte" => (pyCmp actual value).map (fun o => o != Ordering.lt)
    | some "lt" => (pyCmp actual value).map (fun o => o == Ordering.lt)
    | some "lte" => (pyCmp actual value).map (fun o => o != Ordering.gt)
    | some "in" => pyIn actual value
    | some "not_in" => (pyIn actual value).map (fun b => !b)
    | some "contains" =>
      match value with
      | Value.vstr needle => some (strContainsSub (pyStr actual) needle)
      | _ => none
    | _ => some false

/-- Embeds `all(self._check_condition(c, context) for c in conditions)`:
short-circuiting conjunction, propagating a raised exception as `none`. -/
def allConditions : List Condition → Context → Option Bool
  | [], _ => some true
  | c :: cs, ctx =>
    match check_condition c ctx with
    | none => none
    | some false => some false
    | some true => allConditions cs ctx

/-- Embeds `RulesEngine._check_rule`: empty (or missing) condition list never
matches; otherwise AND over all conditions. -/
def check_rule (rule : Rule) (ctx : Context) : Option Bool :=
  let conditions := rule.conditions?.getD []
  if conditions.isEmpty then some false
  else allConditions conditions ctx

/-- The action dict built for a matched rule inside `RulesEngine.evaluate`:
`action = rule.get("action", {}).copy()` stamped with `rule_id`,
`rule_name` and `priority`. -/
def mkAction (rule : Rule) : Dict :=
  let a := rule.action?.getD []
  let a := dictSet a "rule_id" (Value.vstr (rule.id?.getD "unknown"))
  let a := dictSet a "rule_name" (Value.vstr (rule.name?.getD ""))
  dictSet a "priority" (Value.vint (rulePriority rule))

/-- Embeds `RulesEngine.evaluate` over an already-loaded (sorted) rule list.
`none` models an exception raised by a condition check. -/
def evaluate : List Rule → Context → Option (List Dict)
  | [], _ => some []
  | r :: rs, ctx =>
    match check_rule r ctx with
    | none => none
    | some true => (evaluate rs ctx).map (fun out => mkAction r :: out)
    | some false => evaluate rs ctx

/-- The ordering used by `_load_rules`:
`sorted(all_rules, key=lambda r: r.get("priority", 10), reverse=True)`
sorts stably into descending priority, i.e. `a` may precede `b`
iff `priority b ≤ priority a`. -/
def ruleGE (a b : Rule) : Prop := rulePriority b ≤ rulePriority a

instance : DecidableRel ruleGE := fun a b =>
  inferInstanceAs (Decidable (rulePriority b ≤ rulePriority a))

instance : IsTotal Rule ruleGE :=
  ⟨fun a b => le_total (rulePriority b) (rulePriority a)⟩

instance : IsTrans Rule ruleGE :=
  ⟨fun _ _ _ h1 h2 => le_trans h2 h1⟩

/-- The sorting step of `RulesEngine._load_rules`: Python `sorted` is a
stable sort, so the loaded rule list is the (unique) stable descending
rearrangement of the merged rule documents. -/
def sort_rules (l : List Rule) : List Rule := l.insertionSort ruleGE

/-! ## State engine (`src/taniclaw/core/state.py`) -/

/-- The `PlantState` enumeration — the closed lifecycle states. -/
inductive PlantState where
  | seed
  | germination
  | vegetative
  | flowering
  | harvest
  | dormant
  | dead
  deriving DecidableEq

/-- Parse a stored state string into the enumeration (`PlantState(value)`). -/
def plantStateOfString : String → Option PlantState
  | "seed" => some .seed
  | "germination" => some .germination
  | "vegetative" => some .vegetative
  | "flowering" => some .flowering
  | "harvest" => some .harvest
  | "dormant" => some .dormant
  | "dead" => some .dead
  | _ => none

/-- Embeds `StateEngine.get_current_state`: unparseable stored states default to
`SEED` (with a logged warning). -/
def get_current_state (stateStr : String) : PlantState :=
  (plantStateOfString stateStr).getD .seed

/-- The static `TRANSITIONS` adjacency table. -/
def TRANSITIONS : PlantState → List PlantState
  | .seed => [.germination, .dead]
  | .germination => [.vegetative, .dead]
  | .vegetative => [.flowering, .harvest, .dead]
  | .flowering => [.harvest, .vegetative, .dead]
  | .harvest => [.dormant, .dead]
  | .dormant => [.vegetative]
  | .dead => []

/-- Module constant `PLANTS_WITHOUT_FLOWERING` — plant types that skip the flowering stage. -/
def PLANTS_WITHOUT_FLOWERING : List String := ["spinach", "lettuce", "hydroponic"]

/-- Embeds `StateEngine.can_transition`. -/
def can_transition (current target : PlantState) : Bool :=
  (TRANSITIONS current).contains target

/-- Embeds `StateEngine.should_transition`.  The date arithmetic
(`get_days_in_current_state`) and the knowledge-base lookup
(`knowledge.get_stage_duration`, of which only the max is used) are
environment inputs, passed as `daysInState` and `maxDays`. -/
def should_transition (plantType stateStr : String) (daysInState maxDays : Int) :
    Option PlantState :=
  let current := get_current_state stateStr
  if current = .dead then none
  else if daysInState < maxDays then none
  else
    let validNext := TRANSITIONS current
    if validNext.isEmpty then none
    else
      let validNext2 :=
        if plantType ∈ PLANTS_WITHOUT_FLOWERING then
          let filtered := validNext.filter (fun s => s ≠ .flowering)
          if filtered.isEmpty then validNext else filtered
        else validNext
      validNext2.find? (fun c => c ≠ .dead)

/-- Embeds `StateEngine.get_next_state`: first non-dead edge of the unfiltered
transition table; ignores plant type entirely. -/
def get_next_state (stateStr : String) : Option PlantState :=
  (TRANSITIONS (get_current_state stateStr)).find? (fun n => n ≠ .dead)

/-! ## Settings and persisted memory
(`src/taniclaw/core/config.py`, `src/taniclaw/core/memory.py`) -/

/-- The configurable limits from `Settings` (defaults as in `config.py`). -/
structure Settings where
  max_watering_amount_ml : Int := 500
  max_daily_actions : Int := 50
  max_fertilizer_grams : Int := 20

/-- A persisted `Action` row (the fields the core reads/writes).
`createdDay` stands for the `created_at` date; `id` is assigned by the
store (modelled as the row index). -/
structure ActionRecord where
  id : Nat
  plantId : Nat
  actionType : String
  description : String
  source : String
  status : String
  createdDay : Int
  executedNow : Bool

/-- A persisted `History` row for an `"action"` event: the `event_data`
payload written by `ToolExecutor.execute`. -/
structure HistoryEntry where
  plantId : Nat
  eventType : String
  actionId : Nat
  actionType : String
  description : String
  source : String
  result : Dict

/-- The persisted store visible to the core, plus the current date
(`date.today()`), which is fixed within one cycle. -/
structure MemoryState where
  today : Int := 0
  actions : List ActionRecord := []
  history : List HistoryEntry := []

/-- Embeds `Memory.get_today_actions_count`: rows for this plant whose
`created_at` is on or after today's midnight. -/
def get_today_actions_count (st : MemoryState) (plantId : Nat) : Nat :=
  (st.actions.filter (fun r => r.plantId == plantId && r.createdDay ≥ st.today)).length

/-! ## Security guard (`src/taniclaw/core/security.py`) -/

/-- An action dict as seen by the guard and the executor: the keys the
core reads, each possibly missing (`action.get(...)`). -/
structure ActionDict where
  type? : Option String := none
  source? : Option String := none
  amount_ml? : Option Int := none
  amount_grams? : Option Int := none
  description? : Option String := none

/-- Module constant `MAX_FERTILIZER_GRAMS`. -/
def MAX_FERTILIZER_GRAMS : Int := 20

/-- Module constant `MAX_WATER_AMOUNT_ML`. -/
def MAX_WATER_AMOUNT_ML : Int := 2000

/-- Module constant `ALLOWED_ACTION_TYPES`. -/
def ALLOWED_ACTION_TYPES : List String :=
  ["water", "skip_water", "fertilize", "harvest", "notify", "alert", "log"]

/-- Embeds `SecurityGuard.is_human_override`: `action.get("source") == "manual"`. -/
def is_human_override (action : ActionDict) : Bool :=
  action.source? == some "manual"

/-- Embeds `SecurityGuard.check_daily_limit`: true iff the daily limit is NOT
exceeded. -/
def check_daily_limit (settings : Settings) (plantId : Nat) (memory : MemoryState) : Bool :=
  (get_today_actions_count memory plantId : Int) < settings.max_daily_actions

/-- Embeds `SecurityGuard.check_watering_limit`. -/
def check_watering_limit (action : ActionDict) : Bool :=
  action.amount_ml?.getD 0 ≤ MAX_WATER_AMOUNT_ML

/-- Embeds `SecurityGuard.check_fertilizer_limit`. -/
def check_fertilizer_limit (action : ActionDict) : Bool :=
  action.amount_grams?.getD 0 ≤ MAX_FERTILIZER_GRAMS

/-- The guarded daily check `if memory and plant_id: if not
self.check_daily_limit(plant_id, memory)`: blocks only when both are
truthy (non-`None`) and the limit is exceeded. -/
def daily_limit_blocks (settings : Settings) (memory : Option MemoryState)
    (plant_id : Option Nat) : Bool :=
  match memory, plant_id with
  | some mem, some pid => !check_daily_limit settings pid mem
  | _, _ => false

/-- Embeds `SecurityGuard.validate_action`.  Returns `(is_valid, reason)`.
`context` is accepted but unused, as in the source; `memory` and
`plant_id` default to `None` and the daily check runs only when both are
truthy. -/
def validate_action (settings : Settings) (action : ActionDict) (context : Context)
    (memory : Option MemoryState) (plant_id : Option Nat) : Bool × String :=
  let actionType := action.type?.getD ""
  if is_human_override action then
    (true, "human_override")
  else if actionType ∉ ALLOWED_ACTION_TYPES then
    (false, "Unknown action type: " ++ "\x27" ++ actionType ++ "\x27")
  else if daily_limit_blocks settings memory plant_id then
    (false, "Daily action limit exceeded (" ++ toString settings.max_daily_actions
      ++ " actions/day)")
  else if actionType == "water" && !check_watering_limit action then
    (false, "Watering amount exceeds maximum (" ++ toString MAX_WATER_AMOUNT_ML ++ "ml)")
  else if actionType == "fertilize" && !check_fertilizer_limit action then
    (false, "Fertilizer amount exceeds maximum (" ++ toString MAX_FERTILIZER_GRAMS ++ "g)")
  else
    (true, "ok")

/-! ## Tool executor (`src/taniclaw/core/tools.py`) -/

/-- A tool handler: returns a result payload dict, or raises
(`Except.error` models a thrown exception caught by `execute`). -/
abbrev ToolFn := Nat → ActionDict → Except String Dict

/-- Embeds `ToolExecutor._tool_water` (never raises). -/
def tool_water : ToolFn := fun _ params =>
  .ok [("amount_ml", Value.vint (params.amount_ml?.getD 200)),
       ("instruction", Value.vstr (params.description?.getD ""))]

/-- Embeds `ToolExecutor._tool_skip_water`. -/
def tool_skip_water : ToolFn := fun _ params =>
  .ok [("skipped", Value.vbool true),
       ("reason", Value.vstr (params.description?.getD ""))]

/-- Embeds `ToolExecutor._tool_fertilize`.  (`fertilizer_type` is not among the
modelled action keys; the source default `"NPK"` is used.) -/
def tool_fertilize : ToolFn := fun _ params =>
  .ok [("amount_grams", Value.vint (params.amount_grams?.getD 5)),
       ("fertilizer_type", Value.vstr "NPK"),
       ("instruction", Value.vstr (params.description?.getD ""))]

/-- Embeds `ToolExecutor._tool_harvest`. -/
def tool_harvest : ToolFn := fun _ params =>
  .ok [("instruction", Value.vstr (params.description?.getD "")),
       ("harvest_triggered", Value.vbool true)]

/-- Embeds `ToolExecutor._tool_notify`. -/
def tool_notify : ToolFn := fun _ params =>
  .ok [("message", Value.vstr (params.description?.getD "")),
       ("channel", Value.vstr "configured_channels")]

/-- Embeds `ToolExecutor._tool_alert`. -/
def tool_alert : ToolFn := fun _ params =>
  .ok [("message", Value.vstr (params.description?.getD "")),
       ("priority", Value.vstr "high")]

/-- Embeds `ToolExecutor._tool_log`. -/
def tool_log : ToolFn := fun _ params =>
  .ok [("logged", Value.vbool true),
       ("message", Value.vstr (params.description?.getD "Daily cycle completed"))]

/-- A tool registry (`self._registry`). -/
abbrev Registry := List (String × ToolFn)

/-- Embeds `ToolExecutor._register_tools`. -/
def default_registry : Registry :=
  [("water", tool_water), ("skip_water", tool_skip_water),
   ("fertilize", tool_fertilize), ("harvest", tool_harvest),
   ("notify", tool_notify), ("alert", tool_alert), ("log", tool_log)]

/-- Embeds `self._registry.get(action_type, self._tool_log)`. -/
def registryGet (reg : Registry) (actionType : String) : ToolFn :=
  match reg.find? (fun p => p.1 == actionType) with
  | some p => p.2
  | none => tool_log

/-- Embeds `Memory.create_action`: append a row, returning it (with its fresh id). -/
def create_action (st : MemoryState) (record : ActionRecord) : MemoryState × ActionRecord :=
  let record := { record with id := st.actions.length }
  ({ st with actions := st.actions ++ [record] }, record)

/-- Embeds `Memory.add_history`: append a history row. -/
def add_history (st : MemoryState) (entry : HistoryEntry) : MemoryState :=
  { st with history := st.history ++ [entry] }

/-- Embeds `ToolExecutor.execute`: run the handler; on success persist an
`executed` action record plus one history entry; on a raised exception
persist a single `skipped` action record and no history entry.  Returns
the new store and the result dict. -/
def execute (reg : Registry) (st : MemoryState) (plant_id : Nat) (action : ActionDict) :
    MemoryState × Dict :=
  let actionType := action.type?.getD "log"
  let tool_fn := registryGet reg actionType
  match tool_fn plant_id action with
  | .ok result =>
    let c := create_action st
      { id := 0, plantId := plant_id, actionType := actionType,
        description := action.description?.getD "",
        source := action.source?.getD "rules",
        status := "executed", createdDay := st.today, executedNow := true }
    let st2 := add_history c.1
      { plantId := plant_id, eventType := "action", actionId := c.2.id,
        actionType := actionType, description := action.description?.getD "",
        source := action.source?.getD "rules", result := result }
    (st2, dictMerge [("status", Value.vstr "ok"), ("action_type", Value.vstr actionType),
           ("action_id", Value.vstr (toString c.2.id))] result)
  | .error e =>
    let c := create_action st
      { id := 0, plantId := plant_id, actionType := actionType,
        description := action.description?.getD "",
        source := action.source?.getD "rules",
        status := "skipped", createdDay := st.today, executedNow := false }
    (c.1, [("status", Value.vstr "error"), ("action_type", Value.vstr actionType),
           ("error", Value.vstr e)])

/-! ## Orchestrator action loop
(`TaniClawAgent.run_single_plant`, `src/taniclaw/core/core.py` lines 105-121) -/

/-- Embeds `action["source"] = "rules"`. -/
def setSourceRules (a : ActionDict) : ActionDict := { a with source? := some "rules" }

/-- One result collected by the loop: the executor result extended with
`plant_id`, `plant_name` and `rule_id`. -/
structure CycleResult where
  exec : Dict
  plantId : Nat
  plantName : String
  ruleId? : Option String

/-- The per-plant rule-action loop: for each matched action (in engine
order) stamp `source="rules"`, validate via the Security Guard against the
current store, and on acceptance execute via the Tool Executor (with the
default registry) and collect the result; on rejection log and continue.
Notification dispatch for alert/notify types is external I/O and does not
touch the store or the result list. -/
def runActions (settings : Settings) (plant_id : Nat) (plantName : String)
    (context : Context) :
    MemoryState → List (ActionDict × Option String) → MemoryState × List CycleResult
  | st, [] => (st, [])
  | st, (a, ruleId?) :: rest =>
    let a := setSourceRules a
    if (validate_action settings a context (some st) (some plant_id)).1 then
      let e := execute default_registry st plant_id a
      let k := runActions settings plant_id plantName context e.1 rest
      (k.1, { exec := e.2, plantId := plant_id, plantName := plantName,
              ruleId? := ruleId? } :: k.2)
    else
      runActions settings plant_id plantName context st rest

/-! ## Observers used to state the claims -/

/-- The priority stamped into a matched action dict by `evaluate`
(every action it returns carries an integer `"priority"` key). -/
def action_priority (a : Dict) : Int :=
  match dictGet a "priority" with
  | some (Value.vint n) => n
  | _ => 10

/-- The matched actions the Security Guard accepts during the per-plant
loop, each validated against the store as it stands when its turn comes
(acceptance changes the store via the executed action's audit records). -/
def acceptedActions (settings : Settings) (plant_id : Nat) (context : Context) :
    MemoryState → List (ActionDict × Option String) → List ActionDict
  | _, [] => []
  | st, (a, _) :: rest =>
    let a := setSourceRules a
    if (validate_action settings a context (some st) (some plant_id)).1 then
      a :: acceptedActions settings plant_id context
        (execute default_registry st plant_id a).1 rest
    else
      acceptedActions settings plant_id context st rest

/-! ## Theorems settling the claims -/

theorem should_transition_skips_flowering (plantType stateStr : String) (d m : Int)
    (h : plantType ∈ PLANTS_WITHOUT_FLOWERING) :
    should_transition plantType stateStr d m ≠ some PlantState.flowering := by
  unfold should_transition
  generalize get_current_state stateStr = c
  by_cases hd : d < m
  · cases c <;> simp [hd]
  · cases c <;> simp [hd, h] <;> decide

/-- C4: for every plant whose type is in the flowering-skipping set
(spinach, lettuce, hydroponic), `should_transition` never returns
`flowering`, whatever the current state, days-in-state and duration bound. -/
theorem flowering_skippers_never_flower (plantType stateStr : String) (d m : Int)
    (h : plantType ∈ PLANTS_WITHOUT_FLOWERING) :
    should_transition plantType stateStr d m ≠ some PlantState.flowering :=
  should_transition_skips_flowering plantType stateStr d m h

theorem flowering_skippers_never_flower_witness :
    ("spinach" ∈ PLANTS_WITHOUT_FLOWERING) ∧
      should_transition "spinach" "vegetative" 20 15 ≠ some PlantState.flowering :=
  ⟨by decide, flowering_skippers_never_flower "spinach" "vegetative" 20 15 (by decide)⟩

/-- C10: `get_next_state` does not apply the flowering-skip filter: in
state `vegetative` it returns `flowering` (the first non-dead edge of the
unfiltered table) for every plant type, even a flowering-skipping one for
which `should_transition` never returns `flowering`. -/
theorem get_next_state_ignores_flowering_skip (plantType : String) (d m : Int)
    (h : plantType ∈ PLANTS_WITHOUT_FLOWERING) :
    get_next_state "vegetative" = some PlantState.flowering ∧
      should_transition plantType "vegetative" d m ≠ some PlantState.flowering :=
  ⟨rfl, should_transition_skips_flowering plantType "vegetative" d m h⟩

theorem get_next_state_ignores_flowering_skip_witness :
    get_next_state "vegetative" = some PlantState.flowering ∧
      should_transition "lettuce" "vegetative" 30 5 ≠ some PlantState.flowering :=
  get_next_state_ignores_flowering_skip "lettuce" 30 5 (by decide)

/-- C2: an action whose `source` is `"manual"` is accepted immediately with
reason `human_override`, bypassing every other check — whatever its type,
amounts, the store state, or the settings. -/
theorem manual_source_always_accepted (settings : Settings) (action : ActionDict)
    (context : Context) (memory : Option MemoryState) (plant_id : Option Nat)
    (h : action.source? = some "manual") :
    validate_action settings action context memory plant_id = (true, "human_override") := by
  simp [validate_action, is_human_override, h]

theorem manual_source_always_accepted_witness :
    ("dump_chemicals" ∉ ALLOWED_ACTION_TYPES) ∧
      validate_action {} { type? := some "dump_chemicals", source? := some "manual",
                           amount_ml? := some 99999 } [] none none
        = (true, "human_override") :=
  ⟨by decide, manual_source_always_accepted {} _ [] none none rfl⟩

/-- C9: with `memory=None` or `plant_id=None` the daily-limit check is
skipped entirely: a non-manual action of an allowed type with in-range
amounts is accepted with reason `"ok"`, whatever any store records say. -/
theorem daily_check_skipped_without_memory (settings : Settings) (action : ActionDict)
    (context : Context) (memory : Option MemoryState) (plant_id : Option Nat)
    (hskip : memory = none ∨ plant_id = none)
    (hman : is_human_override action = false)
    (htype : action.type?.getD "" ∈ ALLOWED_ACTION_TYPES)
    (hw : action.type?.getD "" = "water" → action.amount_ml?.getD 0 ≤ MAX_WATER_AMOUNT_ML)
    (hf : action.type?.getD "" = "fertilize" →
      action.amount_grams?.getD 0 ≤ MAX_FERTILIZER_GRAMS) :
    validate_action settings action context memory plant_id = (true, "ok") := by
  have hdm : daily_limit_blocks settings memory plant_id = false := by
    unfold daily_limit_blocks
    rcases hskip with h | h
    · subst h; rfl
    · subst h; cases memory <;> rfl
  unfold validate_action
  rw [hman, hdm]
  simp only [Bool.false_eq_true, if_false, if_neg (not_not_intro htype)]
  by_cases hwt : action.type?.getD "" = "water"
  · have hcw : check_watering_limit action = true := by
      simp [check_watering_limit, hw hwt]
    simp [hwt, hcw]
  · by_cases hft : action.type?.getD "" = "fertilize"
    · have hcf : check_fertilizer_limit action = true := by
        simp [check_fertilizer_limit, hf hft]
      simp [hwt, hft, hcf]
    · simp [hwt, hft]

theorem daily_check_skipped_without_memory_witness :
    get_today_actions_count
        { today := 0,
          actions := [{ id := 0, plantId := 7, actionType := "water", description := "",
                        source := "rules", status := "executed", createdDay := 0,
                        executedNow := true }],
          history := [] } 7 = 1
    ∧ (1 : Int) ≥ ({ max_daily_actions := 1 : Settings }).max_daily_actions
    ∧ validate_action { max_daily_actions := 1 } { type? := some "notify" } []
        (some { today := 0,
                actions := [{ id := 0, plantId := 7, actionType := "water", description := "",
                              source := "rules", status := "executed", createdDay := 0,
                              executedNow := true }],
                history := [] }) none
        = (true, "ok") :=
  ⟨rfl, by decide,
    daily_check_skipped_without_memory { max_daily_actions := 1 }
      { type? := some "notify" } [] _ none
      (Or.inr rfl) rfl (by decide) (by decide) (by decide)⟩

/-- C3: a non-manual `water` action with `amount_ml` over the fixed
2000 ml hard ceiling is rejected whatever the settings (including any
soft watering limit), store state, or daily quota; when the daily-limit
check does not itself reject, the reason cites the 2000 ml maximum; and
any amount at most 2000 passes the watering check. -/
theorem water_over_hard_ceiling_rejected (settings : Settings) (action : ActionDict)
    (context : Context) (memory : Option MemoryState) (plant_id : Option Nat)
    (hman : is_human_override action = false)
    (htype : action.type?.getD "" = "water")
    (hamt : MAX_WATER_AMOUNT_ML < action.amount_ml?.getD 0) :
    (validate_action settings action context memory plant_id).1 = false
    ∧ (daily_limit_blocks settings memory plant_id = false →
        (validate_action settings action context memory plant_id).2 =
          "Watering amount exceeds maximum (2000ml)")
    ∧ ∀ a2 : ActionDict, a2.amount_ml?.getD 0 ≤ MAX_WATER_AMOUNT_ML →
        check_watering_limit a2 = true := by
  have hcw : check_watering_limit action = false := by
    simp [check_watering_limit]
    exact hamt
  refine ⟨?_, ?_, ?_⟩
  · unfold validate_action
    rw [hman]
    simp only [Bool.false_eq_true, if_false, htype, if_neg (not_not_intro (by decide :
      ("water" : String) ∈ ALLOWED_ACTION_TYPES))]
    by_cases hd : daily_limit_blocks settings memory plant_id = true
    · simp [hd]
    · simp [hd, hcw]
  · intro hdb
    unfold validate_action
    rw [hman, hdb]
    simp only [Bool.false_eq_true, if_false, htype, if_neg (not_not_intro (by decide :
      ("water" : String) ∈ ALLOWED_ACTION_TYPES))]
    simp [hcw]
    rfl
  · intro a2 h2
    simp [check_watering_limit]
    exact h2

theorem water_over_hard_ceiling_rejected_witness :
    (validate_action { max_watering_amount_ml := 100 }
        { type? := some "water", source? := some "rules", amount_ml? := some 2001 }
        [] (some {}) (some 1)).1 = false
    ∧ (validate_action { max_watering_amount_ml := 100 }
        { type? := some "water", source? := some "rules", amount_ml? := some 2001 }
        [] (some {}) (some 1)).2 = "Watering amount exceeds maximum (2000ml)"
    ∧ check_watering_limit { type? := some "water", amount_ml? := some 2000 } = true :=
  ⟨(water_over_hard_ceiling_rejected { max_watering_amount_ml := 100 }
      { type? := some "water", source? := some "rules", amount_ml? := some 2001 }
      [] (some {}) (some 1) rfl rfl (by decide)).1,
   (water_over_hard_ceiling_rejected { max_watering_amount_ml := 100 }
      { type? := some "water", source? := some "rules", amount_ml? := some 2001 }
      [] (some {}) (some 1) rfl rfl (by decide)).2.1 rfl,
   (water_over_hard_ceiling_rejected { max_watering_amount_ml := 100 }
      { type? := some "water", source? := some "rules", amount_ml? := some 2001 }
      [] (some {}) (some 1) rfl rfl (by decide)).2.2 _ (by decide)⟩

/-- C6: a condition whose field is absent from the context evaluates to
`False` (returned, not raised), for every operator — including `neq`,
`not_in`, and unknown ones. -/
theorem absent_field_condition_false (cond : Condition) (ctx : Context)
    (habs : ∀ f, cond.field? = some f → dictGet ctx f = none) :
    check_condition cond ctx = some false := by
  unfold check_condition
  have : ctxGet ctx cond.field? = Value.vnone := by
    unfold ctxGet
    cases hf : cond.field? with
    | none => rfl
    | some f =>
      show (dictGet ctx f).getD Value.vnone = Value.vnone
      rw [habs f hf]
      rfl
  rw [this]
  rfl

theorem absent_field_condition_false_witness :
    check_condition { field? := some "soil_moisture", operator? := some "not_in",
                      value? := some (Value.vlist [Value.vstr "dry"]) }
      [("humidity", Value.vint 70)] = some false :=
  absent_field_condition_false _ _ (fun f hf => by cases hf; rfl)

/-- C7: a rule whose condition list is empty or missing never matches, and
consequently every action `evaluate` returns comes from a rule with a
non-empty condition list. -/
theorem empty_conditions_rule_never_matches (ctx : Context) :
    (∀ rule : Rule, rule.conditions?.getD [] = [] → check_rule rule ctx = some false)
    ∧ ∀ (rules : List Rule) (out : List Dict), evaluate rules ctx = some out →
        ∀ a ∈ out, ∃ r, r ∈ rules ∧ r.conditions?.getD [] ≠ [] ∧
          check_rule r ctx = some true ∧ a = mkAction r := by
  have hinert : ∀ rule : Rule, rule.conditions?.getD [] = [] →
      check_rule rule ctx = some false := by
    intro rule h
    unfold check_rule
    rw [h]
    rfl
  refine ⟨hinert, ?_⟩
  intro rules
  induction rules with
  | nil =>
    intro out h a ha
    simp only [evaluate, Option.some.injEq] at h
    subst h
    cases ha
  | cons r rs ih =>
    intro out h a ha
    simp only [evaluate] at h
    cases hcr : check_rule r ctx with
    | none => rw [hcr] at h; cases h
    | some b =>
      rw [hcr] at h
      cases b with
      | true =>
        rcases Option.map_eq_some'.1 h with ⟨out', hev, rfl⟩
        rcases List.mem_cons.1 ha with rfl | hmem
        · refine ⟨r, List.mem_cons_self r rs, ?_, hcr, rfl⟩
          intro hempty
          rw [hinert r hempty] at hcr
          cases hcr
        · rcases ih out' hev a hmem with ⟨r', hr', hne, hcr', rfl⟩
          exact ⟨r', List.mem_cons_of_mem r hr', hne, hcr', rfl⟩
      | false =>
        rcases ih out h a ha with ⟨r', hr', hne, hcr', rfl⟩
        exact ⟨r', List.mem_cons_of_mem r hr', hne, hcr', rfl⟩

theorem empty_conditions_rule_never_matches_witness :
    check_rule { id? := some "r0", priority? := some 100, conditions? := some [] }
      [("plant_state", Value.vstr "vegetative")] = some false :=
  (empty_conditions_rule_never_matches [("plant_state", Value.vstr "vegetative")]).1 _ rfl

/-- C1 counterexample: with a handler that throws, a single `execute` call
writes one `skipped` action record but appends NO history entry — the
"exactly one history entry regardless of handler failure" part of the
claim is false on the code. -/
theorem execute_handler_failure_appends_no_history :
    (execute [("water", fun _ _ => Except.error "valve jammed")] {} 1
        { type? := some "water", source? := some "rules" }).1.actions.length = 1
    ∧ ((execute [("water", fun _ _ => Except.error "valve jammed")] {} 1
        { type? := some "water", source? := some "rules" }).1.actions.map
          (fun row => row.status)) = ["skipped"]
    ∧ (execute [("water", fun _ _ => Except.error "valve jammed")] {} 1
        { type? := some "water", source? := some "rules" }).1.history.length = 0 :=
  ⟨rfl, rfl, rfl⟩

/-- C1 (amended): every `execute` call appends exactly one action record —
`executed` if the handler succeeds, `skipped` if it throws — and appends
exactly one history entry when the handler succeeds and none when it
throws. -/
theorem execute_records_action_always_history_on_success (reg : Registry)
    (st : MemoryState) (pid : Nat) (a : ActionDict) :
    (execute reg st pid a).1.actions.length = st.actions.length + 1
    ∧ (∀ r, registryGet reg (a.type?.getD "log") pid a = .ok r →
        (execute reg st pid a).1.history.length = st.history.length + 1
        ∧ (execute reg st pid a).1.actions.getLast?.map (fun row => row.status)
            = some "executed")
    ∧ (∀ e, registryGet reg (a.type?.getD "log") pid a = .error e →
        (execute reg st pid a).1.history.length = st.history.length
        ∧ (execute reg st pid a).1.actions.getLast?.map (fun row => row.status)
            = some "skipped") := by
  refine ⟨?_, ?_, ?_⟩
  · simp only [execute]
    cases hreg : registryGet reg (a.type?.getD "log") pid a <;>
      simp [create_action, add_history]
  · intro r hr
    simp only [execute]
    rw [hr]
    simp [create_action, add_history, List.getLast?_concat]
  · intro e he
    simp only [execute]
    rw [he]
    simp [create_action, add_history, List.getLast?_concat]

theorem execute_records_action_always_history_on_success_witness :
    (execute default_registry {} 1
      { type? := some "water", source? := some "rules", amount_ml? := some 300 }
      ).1.actions.length = 1
    ∧ (execute default_registry {} 1
      { type? := some "water", source? := some "rules", amount_ml? := some 300 }
      ).1.history.length = 1
    ∧ (execute default_registry {} 1
      { type? := some "water", source? := some "rules", amount_ml? := some 300 }
      ).1.actions.getLast?.map (fun row => row.status) = some "executed" :=
  ⟨(execute_records_action_always_history_on_success default_registry {} 1
      { type? := some "water", source? := some "rules", amount_ml? := some 300 }).1,
   ((execute_records_action_always_history_on_success default_registry {} 1
      { type? := some "water", source? := some "rules", amount_ml? := some 300 }).2.1
      _ rfl).1,
   ((execute_records_action_always_history_on_success default_registry {} 1
      { type? := some "water", source? := some "rules", amount_ml? := some 300 }).2.1
      _ rfl).2⟩

/-- Helper: the loop returns exactly one result per accepted action. -/
theorem runActions_length_eq_accepted (settings : Settings) (pid : Nat) (pname : String)
    (ctx : Context) :
    ∀ (l : List (ActionDict × Option String)) (st : MemoryState),
      (runActions settings pid pname ctx st l).2.length =
        (acceptedActions settings pid ctx st l).length := by
  intro l
  induction l with
  | nil => intro st; rfl
  | cons x rest ih =>
    intro st
    cases x with
    | mk a rid =>
      simp only [runActions, acceptedActions]
      by_cases hv : (validate_action settings (setSourceRules a) ctx (some st) (some pid)).1
        = true
      · simp [hv, ih]
      · simp [hv, ih]

/-- Helper: a rejected action is a no-op for the rest of the loop. -/
theorem runActions_insert_rejected (settings : Settings) (pid : Nat) (pname : String)
    (ctx : Context) (bad : ActionDict × Option String) :
    ∀ (xs ys : List (ActionDict × Option String)) (st : MemoryState),
      (validate_action settings (setSourceRules bad.1) ctx
        (some (runActions settings pid pname ctx st xs).1) (some pid)).1 = false →
      runActions settings pid pname ctx st (xs ++ bad :: ys) =
        runActions settings pid pname ctx st (xs ++ ys) := by
  intro xs
  induction xs with
  | nil =>
    intro ys st hrej
    simp only [runActions] at hrej
    cases bad with
    | mk b rid =>
      simp only [List.nil_append, runActions]
      simp only at hrej
      rw [hrej]
      simp
  | cons x xs ih =>
    intro ys st hrej
    cases x with
    | mk a rid =>
      simp only [List.cons_append, runActions]
      by_cases hv : (validate_action settings (setSourceRules a) ctx (some st) (some pid)).1
        = true
      · have hrej' : (validate_action settings (setSourceRules bad.1) ctx
            (some (runActions settings pid pname ctx
              (execute default_registry st pid (setSourceRules a)).1 xs).1)
            (some pid)).1 = false := by
          simp only [runActions, hv, if_true] at hrej
          exact hrej
        rw [hv]
        simp only [if_true, List.append_eq]
        rw [ih ys _ hrej']
      · have hrej' : (validate_action settings (setSourceRules bad.1) ctx
            (some (runActions settings pid pname ctx st xs).1) (some pid)).1 = false := by
          simp only [runActions, hv] at hrej
          simpa using hrej
        simp only [hv, if_false]
        exact ih ys st hrej'

/-- C8: a Security Guard rejection does not abort the per-plant loop —
inserting an action that is rejected at its turn leaves the processing of
every subsequent matched action (and the whole result list) unchanged,
and the loop returns exactly one result per accepted action. -/
theorem guard_rejection_does_not_abort_loop (settings : Settings) (pid : Nat)
    (pname : String) (ctx : Context) (st : MemoryState)
    (xs ys : List (ActionDict × Option String)) (bad : ActionDict × Option String)
    (hrej : (validate_action settings (setSourceRules bad.1) ctx
      (some (runActions settings pid pname ctx st xs).1) (some pid)).1 = false) :
    runActions settings pid pname ctx st (xs ++ bad :: ys) =
      runActions settings pid pname ctx st (xs ++ ys)
    ∧ ∀ (l : List (ActionDict × Option String)) (st2 : MemoryState),
        (runActions settings pid pname ctx st2 l).2.length =
          (acceptedActions settings pid ctx st2 l).length :=
  ⟨runActions_insert_rejected settings pid pname ctx bad xs ys st hrej,
   fun l st2 => runActions_length_eq_accepted settings pid pname ctx l st2⟩

theorem guard_rejection_does_not_abort_loop_witness :
    runActions {} 1 "tomato-1" {} {}
        ([] ++ ({ type? := some "teleport" }, some "r9") ::
          [({ type? := some "log", description? := some "cycle" }, some "r1")]) =
      runActions {} 1 "tomato-1" {} {}
        ([] ++ [({ type? := some "log", description? := some "cycle" }, some "r1")])
    ∧ (runActions {} 1 "tomato-1" {} {}
        [({ type? := some "log", description? := some "cycle" }, some "r1")]).2.length =
      (acceptedActions {} 1 {} {}
        [({ type? := some "log", description? := some "cycle" }, some "r1")]).length :=
  ⟨(guard_rejection_does_not_abort_loop {} 1 "tomato-1" {} {} []
      [({ type? := some "log", description? := some "cycle" }, some "r1")]
      ({ type? := some "teleport" }, some "r9") rfl).1,
   (guard_rejection_does_not_abort_loop {} 1 "tomato-1" {} {} []
      [({ type? := some "log", description? := some "cycle" }, some "r1")]
      ({ type? := some "teleport" }, some "r9") rfl).2 _ _⟩

/-- Helper: setting a key that is present rewrites it in place and a
subsequent lookup finds the new value. -/
theorem find?_map_set (k : String) (v : Value) :
    ∀ d : Dict, d.any (fun p => p.1 == k) = true →
      (d.map (fun p => if p.1 == k then (k, v) else p)).find? (fun p => p.1 == k)
        = some (k, v) := by
  intro d
  induction d with
  | nil => intro h; cases h
  | cons p d ih =>
    intro h
    by_cases hp : (p.1 == k) = true
    · rw [List.map_cons, if_pos hp, List.find?_cons_of_pos _ (by simp)]
    · rw [List.map_cons, if_neg hp]
      rw [Bool.not_eq_true] at hp
      simp only [List.find?_cons, hp]
      simp only [List.any_cons, hp, Bool.false_or] at h
      exact ih h

/-- Helper: `dictGet` after `dictSet` of the same key returns the set value. -/
theorem dictGet_dictSet (d : Dict) (k : String) (v : Value) :
    dictGet (dictSet d k v) k = some v := by
  unfold dictGet dictSet
  by_cases h : d.any (fun p => p.1 == k) = true
  · rw [if_pos h, find?_map_set k v d h]
  · rw [if_neg h]
    have hn : d.find? (fun p => p.1 == k) = none := by
      rw [List.find?_eq_none]
      intro p hp hk
      exact h (List.any_eq_true.2 ⟨p, hp, hk⟩)
    rw [List.find?_append, hn]
    simp

/-- Helper: the priority stamped by `mkAction` is the rule's priority. -/
theorem action_priority_mkAction (r : Rule) :
    action_priority (mkAction r) = rulePriority r := by
  unfold action_priority mkAction
  rw [dictGet_dictSet]

/-- Helper: a successful `evaluate` returns exactly the stamped actions of
the matching rules, in rule-list order. -/
theorem evaluate_eq_filter (ctx : Context) :
    ∀ (rules : List Rule) (out : List Dict), evaluate rules ctx = some out →
      out = (rules.filter (fun r => check_rule r ctx == some true)).map mkAction := by
  intro rules
  induction rules with
  | nil =>
    intro out h
    simp only [evaluate, Option.some.injEq] at h
    simp [← h]
  | cons r rs ih =>
    intro out h
    simp only [evaluate] at h
    cases hcr : check_rule r ctx with
    | none => rw [hcr] at h; cases h
    | some b =>
      rw [hcr] at h
      cases b with
      | true =>
        rcases Option.map_eq_some'.1 h with ⟨out', hev, rfl⟩
        rw [List.filter_cons_of_pos (by simp [hcr]), List.map_cons, ih out' hev]
      | false =>
        rw [List.filter_cons_of_neg (by simp [hcr])]
        exact ih out h

/-- Helper: inserting into a descending-sorted list places the new rule
before every rule of equal priority, so the per-priority sublists are
`x`-prepended (when the priority matches) and otherwise untouched. -/
theorem filter_orderedInsert (p : Int) (x : Rule) :
    ∀ l : List Rule, List.Sorted ruleGE l →
      (List.orderedInsert ruleGE x l).filter (fun r => rulePriority r == p)
        = if rulePriority x == p
            then x :: l.filter (fun r => rulePriority r == p)
            else l.filter (fun r => rulePriority r == p) := by
  intro l
  induction l with
  | nil =>
    intro _
    by_cases hxp : (rulePriority x == p) = true
    · rw [if_pos hxp]
      simp [List.orderedInsert, List.filter_cons, hxp]
    · rw [if_neg hxp]
      rw [Bool.not_eq_true] at hxp
      simp [List.orderedInsert, List.filter_cons, hxp]
  | cons b l ih =>
    intro hs
    by_cases hxb : ruleGE x b
    · rw [List.orderedInsert_of_le _ _ hxb]
      by_cases hxp : (rulePriority x == p) = true
      · rw [if_pos hxp]
        simp [List.filter_cons, hxp]
      · rw [if_neg hxp]
        rw [Bool.not_eq_true] at hxp
        simp [List.filter_cons, hxp]
    · simp only [List.orderedInsert, if_neg hxb]
      have hb : rulePriority x < rulePriority b := lt_of_not_le hxb
      have htail := ih hs.of_cons
      by_cases hxp : (rulePriority x == p) = true
      · have hbp : (rulePriority b == p) = false := by
          rw [beq_iff_eq] at hxp
          subst hxp
          simp only [beq_eq_false_iff_ne, ne_eq]
          exact fun hbeq => absurd hbeq (ne_of_gt hb)
        rw [if_pos hxp] at htail ⊢
        simp only [List.filter_cons, hbp, Bool.false_eq_true, if_false]
        exact htail
      · rw [if_neg hxp] at htail ⊢
        by_cases hbp : (rulePriority b == p) = true
        · simp only [List.filter_cons, hbp, if_true, htail]
        · rw [Bool.not_eq_true] at hbp
          simp only [List.filter_cons, hbp, Bool.false_eq_true, if_false]
          exact htail

/-- Helper: Python sorting is stable — within each priority value the
sorted rule list preserves the original load order exactly. -/
theorem filter_sort_rules (p : Int) :
    ∀ l : List Rule,
      (sort_rules l).filter (fun r => rulePriority r == p)
        = l.filter (fun r => rulePriority r == p) := by
  intro l
  induction l with
  | nil => rfl
  | cons x l ih =>
    show (List.orderedInsert ruleGE x (List.insertionSort ruleGE l)).filter
        (fun r => rulePriority r == p) = _
    rw [filter_orderedInsert p x _ (List.sorted_insertionSort ruleGE l)]
    have ih' : (List.insertionSort ruleGE l).filter (fun r => rulePriority r == p)
        = l.filter (fun r => rulePriority r == p) := ih
    by_cases hxp : (rulePriority x == p) = true
    · rw [if_pos hxp, ih']
      simp [List.filter_cons, hxp]
    · rw [if_neg hxp, ih']
      rw [Bool.not_eq_true] at hxp
      simp [List.filter_cons, hxp]

/-- Helper: sorting commutes with any per-priority filter. -/
theorem filter_and_sort_rules (q : Rule → Bool) (p : Int) (l : List Rule) :
    (sort_rules l).filter (fun r => q r && rulePriority r == p)
      = l.filter (fun r => q r && rulePriority r == p) :=
  calc (sort_rules l).filter (fun r => q r && rulePriority r == p)
      = ((sort_rules l).filter (fun r => rulePriority r == p)).filter q := by
        rw [List.filter_filter]
    _ = (l.filter (fun r => rulePriority r == p)).filter q := by rw [filter_sort_rules]
    _ = l.filter (fun r => q r && rulePriority r == p) := by rw [List.filter_filter]

/-- C5: `evaluate` over the loaded (sorted) rule set is deterministic, its
output is ordered by non-increasing stamped priority, and within each
priority value the output preserves the original load order of the
matching rules (stable ties). -/
theorem evaluate_deterministic_sorted_stable (l : List Rule) (ctx : Context)
    (out : List Dict) (h : evaluate (sort_rules l) ctx = some out) :
    (∀ out2, evaluate (sort_rules l) ctx = some out2 → out2 = out)
    ∧ out.Pairwise (fun a b => action_priority b ≤ action_priority a)
    ∧ ∀ p : Int, out.filter (fun a => action_priority a == p)
        = (l.filter (fun r => check_rule r ctx == some true && rulePriority r == p)).map
            mkAction := by
  have hout := evaluate_eq_filter ctx _ _ h
  refine ⟨fun out2 h2 => by rw [h] at h2; exact (Option.some.inj h2).symm, ?_, ?_⟩
  · subst hout
    rw [List.pairwise_map]
    have hfil : List.Pairwise ruleGE
        ((sort_rules l).filter (fun r => check_rule r ctx == some true)) :=
      List.Pairwise.sublist (List.filter_sublist _) (List.sorted_insertionSort ruleGE l)
    refine hfil.imp ?_
    intro a b hab
    rw [action_priority_mkAction, action_priority_mkAction]
    exact hab
  · intro p
    subst hout
    rw [List.filter_map]
    congr 1
    rw [show ((fun a => action_priority a == p) ∘ mkAction)
        = (fun r : Rule => rulePriority r == p) from
      funext (fun r => by simp only [Function.comp_apply, action_priority_mkAction])]
    rw [List.filter_filter]
    rw [show (fun r : Rule => (rulePriority r == p) && (check_rule r ctx == some true))
        = (fun r : Rule => (check_rule r ctx == some true) && (rulePriority r == p)) from
      funext (fun r => Bool.and_comm _ _)]
    exact filter_and_sort_rules (fun r => check_rule r ctx == some true) p l

theorem evaluate_deterministic_sorted_stable_witness :
    List.Pairwise (fun a b => action_priority b ≤ action_priority a)
      [mkAction { id? := some "high", priority? := some 80,
                  conditions? := some [{ field? := some "t", operator? := some "eq",
                                         value? := some (Value.vint 1) }],
                  action? := some [("type", Value.vstr "alert")] },
       mkAction { id? := some "low", priority? := some 20,
                  conditions? := some [{ field? := some "t", operator? := some "eq",
                                         value? := some (Value.vint 1) }],
                  action? := some [("type", Value.vstr "log")] }] :=
  (evaluate_deterministic_sorted_stable
    [{ id? := some "low", priority? := some 20,
       conditions? := some [{ field? := some "t", operator? := some "eq",
                              value? := some (Value.vint 1) }],
       action? := some [("type", Value.vstr "log")] },
     { id? := some "high", priority? := some 80,
       conditions? := some [{ field? := some "t", operator? := some "eq",
                              value? := some (Value.vint 1) }],
       action? := some [("type", Value.vstr "alert")] }]
    [("t", Value.vint 1)]
    [mkAction { id? := some "high", priority? := some 80,
                conditions? := some [{ field? := some "t", operator? := some "eq",
                                       value? := some (Value.vint 1) }],
                action? := some [("type", Value.vstr "alert")] },
     mkAction { id? := some "low", priority? := some 20,
                conditions? := some [{ field? := some "t", operator? := some "eq",
                                       value? := some (Value.vint 1) }],
                action? := some [("type", Value.vstr "log")] }]
    rfl).2.1

end TaniClaw
